import Mathlib

/-!
Verification of the Live-Mode segmentation and background-transcription
pipeline of the voice-enricher desktop application.

The embedding models the TypeScript source (`src/unnamed/part_003`):
text processing (`filterNonSpeechTags`, the per-segment uncertainty
heuristic, `getUncertainTooltip`), the FIFO transcription queue worker
(`processTranscriptionQueue`), the voice-activity-detection tick
(`checkVoiceActivity`), segment sealing (`processLiveSegment`) and the
stop sequence (`stopLiveMode` / the stop branch of `toggleLiveMode`).

JavaScript strings are modelled as `List Char` (every character used by
the program is a single UTF-16 code unit, so JS `.length` agrees with
the list length).  Times are naturals in milliseconds, audio durations
and segment timestamps are rationals in seconds (JS numbers; no float
rounding is relevant to the claims).  External collaborators
(transcription backend, persistence) are explicit function parameters,
matching the collaborator contracts of the design.
-/

/-- The JS `\s` / `trim` whitespace class (as used by `/\s+/` and `String.trim`):
space, tab, LF, VT, FF, CR, NBSP, the Unicode space separators U+1680,
U+2000-U+200A, U+2028, U+2029, U+202F, U+205F, U+3000, and the BOM U+FEFF. -/
def jsWsB (c : Char) : Bool :=
  c = ' ' || c = '\t' || c = '\n' || c = '\r' || c.toNat = 0x0B || c.toNat = 0x0C ||
  c.toNat = 0xA0 || c.toNat = 0x1680 ||
  (0x2000 ≤ c.toNat && c.toNat ≤ 0x200A) ||
  c.toNat = 0x2028 || c.toNat = 0x2029 || c.toNat = 0x202F || c.toNat = 0x205F ||
  c.toNat = 0x3000 || c.toNat = 0xFEFF

/-- JS case folding for the `i` regex flag, on the alphabet the tag patterns use
(ASCII letters plus the German umlauts appearing in the pattern words). -/
def jsLower (c : Char) : Char :=
  if c = 'Ä' then 'ä' else if c = 'Ö' then 'ö' else if c = 'Ü' then 'ü'
  else c.toLower

/-- `String.prototype.trim`: drop leading and trailing whitespace. -/
def jsTrim (l : List Char) : List Char :=
  ((l.dropWhile jsWsB).reverse.dropWhile jsWsB).reverse

/-- One pass of `.replace(/\s+/g, " ")`: every maximal whitespace run becomes a
single space.  The `Bool` flag records whether we are inside a run whose space
has already been emitted. -/
def collapseGo : Bool → List Char → List Char
  | _, [] => []
  | inRun, c :: rest =>
    if jsWsB c then
      if inRun then collapseGo true rest else ' ' :: collapseGo true rest
    else c :: collapseGo false rest

/-- `.replace(/\s+/g, " ")`. -/
def collapseWsRun (l : List Char) : List Char := collapseGo false l

/-- `String.prototype.split(/\s+/)`.  Mode `false`: accumulating a token in
`acc` (reversed); mode `true`: just consumed a separator run.  JS yields an
empty leading token for leading whitespace and an empty trailing token for
trailing whitespace. -/
def splitWsGo : Bool → List Char → List Char → List (List Char)
  | false, [], acc => [acc.reverse]
  | true, [], _ => [[]]
  | false, c :: rest, acc =>
    if jsWsB c then acc.reverse :: splitWsGo true rest [] else splitWsGo false rest (c :: acc)
  | true, c :: rest, _ =>
    if jsWsB c then splitWsGo true rest [] else splitWsGo false rest [c]

/-- `s.split(/\s+/)` on a character list. -/
def jsSplitWs (l : List Char) : List (List Char) := splitWsGo false l []

/-- `needle` occurs at the head of `hay` (exact characters). -/
def startsWithCh : List Char → List Char → Bool
  | [], _ => true
  | _ :: _, [] => false
  | n :: ns, h :: hs => n = h && startsWithCh ns hs

/-- `hay.includes(needle)`: `needle` occurs somewhere in `hay`. -/
def containsSub (needle : List Char) : List Char → Bool
  | [] => startsWithCh needle []
  | h :: hs => startsWithCh needle (h :: hs) || containsSub needle hs

/-- Case-insensitive `startsWithCh` (regex `i` flag). -/
def ciStartsWith : List Char → List Char → Bool
  | [], _ => true
  | _ :: _, [] => false
  | n :: ns, h :: hs => jsLower n = jsLower h && ciStartsWith ns hs

/-- `/(.)\1{3,}/.test`: four or more consecutive equal characters, where the
captured character cannot be a newline (JS `.` does not match `\n`). -/
def jsRepeat4 : List Char → Bool
  | a :: b :: c :: d :: rest =>
    (decide (a ≠ '\n') && a = b && b = c && c = d) || jsRepeat4 (b :: c :: d :: rest)
  | _ => false

/-- Some character (any character) repeated four or more times consecutively —
the reading of the claim text, with no newline exception. -/
def anyRepeat4 : List Char → Bool
  | a :: b :: c :: d :: rest =>
    (a = b && b = c && c = d) || anyRepeat4 (b :: c :: d :: rest)
  | _ => false

/-! ### The non-speech tag patterns (source lines 757–787)

Each regex in `nonSpeechTagPatterns` has one of four shapes; a matcher
computes, for a given position, the length of the (unique) match starting
there, if any.  `replace(pattern, "")` with a global regex deletes the
leftmost match, then continues scanning after it. -/

/-- `/\[[^\]]{1,50}\]/gi` at the current position: `[`, then 1–50 characters
that are not `]`, then the first `]`. -/
def matchBracketLen : List Char → Option Nat
  | '[' :: rest =>
    let run := rest.takeWhile (fun c => c != ']')
    if 1 ≤ run.length && run.length ≤ 50 && run.length < rest.length then
      some (run.length + 2)
    else none
  | _ => none

/-- `/\(\s*WORD\s*\)/gi` (or the `*…*` variant): opening delimiter, optional
whitespace, the word case-insensitively, optional whitespace, closing
delimiter.  Both `\s*` are deterministic here because the words start and end
with letters and the delimiters are not whitespace. -/
def matchDelimWordLen (openD closeD : Char) (word : List Char) : List Char → Option Nat
  | [] => none
  | c :: rest =>
    if c = openD then
      let ws1 := rest.takeWhile jsWsB
      let r2 := rest.drop ws1.length
      if ciStartsWith word r2 then
        let r3 := r2.drop word.length
        let ws2 := r3.takeWhile jsWsB
        match r3.drop ws2.length with
        | d :: _ => if d = closeD then some (2 + ws1.length + word.length + ws2.length) else none
        | [] => none
      else none
    else none

/-- `word` occurs case-insensitively inside `run` at some offset `k`,
`1 ≤ k ≤ 30` (the `[^*]{1,30}` prefix of the generic asterisk patterns). -/
def occursWithin (word run : List Char) : Bool :=
  (List.range 30).any (fun i => ciStartsWith word (run.drop (i + 1)))

/-- `/\*[^*]{1,30}WORD[^*]*\*/gi` at the current position: `*`, a non-`*` run
containing the word at offset ≥ 1, closed by the next `*`.  Backtracking over
`[^*]{1,30}` and `[^*]*` always ends the match at the first `*` after the run,
so the match length is determined by the run alone. -/
def matchStarGenericLen (word : List Char) : List Char → Option Nat
  | '*' :: rest =>
    let run := rest.takeWhile (fun c => c != '*')
    if run.length < rest.length && occursWithin word run then some (run.length + 2)
    else none
  | _ => none

/-- The four shapes of regex appearing in `nonSpeechTagPatterns`. -/
inductive TagPat where
  | bracket : TagPat
  | paren : String → TagPat
  | star : String → TagPat
  | starGeneric : String → TagPat
deriving DecidableEq

/-- Source lines 758–787: the ordered pattern list of `nonSpeechTagPatterns`. -/
def nonSpeechTagPatterns : List TagPat :=
  [ .bracket,
    .paren "Musik", .paren "Music", .paren "Applaus", .paren "Lachen",
    .paren "Aufregung", .paren "Schreien",
    .star "Musik", .star "Music", .star "Applaus", .star "Applause",
    .star "Lachen", .star "Laughter", .star "Gelächter", .star "Stille",
    .star "Silence", .star "Räuspern", .star "Husten", .star "Seufzen",
    .star "Aufregung", .star "Schreien",
    .starGeneric "Lachen", .starGeneric "Musik", .starGeneric "Geräusch" ]

/-- Match length of one pattern at the current position. -/
def TagPat.matchLen : TagPat → List Char → Option Nat
  | .bracket, l => matchBracketLen l
  | .paren w, l => matchDelimWordLen '(' ')' w.data l
  | .star w, l => matchDelimWordLen '*' '*' w.data l
  | .starGeneric w, l => matchStarGenericLen w.data l

/-- `text.replace(pattern, "")` for a global regex: scan left to right, delete
each match and continue after it.  `fuel` only makes the recursion structural;
it starts at the length of the list, and every step either consumes a
character or a nonempty match, so it never runs out. -/
def replacePatFuel (m : List Char → Option Nat) : Nat → List Char → List Char
  | 0, l => l
  | _ + 1, [] => []
  | fuel + 1, c :: rest =>
    match m (c :: rest) with
    | some n => replacePatFuel m fuel (rest.drop (n - 1))
    | none => c :: replacePatFuel m fuel rest

/-- `text.replace(pattern, "")` (global). -/
def applyPat (p : TagPat) (l : List Char) : List Char :=
  replacePatFuel p.matchLen l.length l

/-- Source lines 790–801, `filterNonSpeechTags`: delete every pattern in
order; then (unless `preserveWhitespace`) collapse all whitespace runs to a
single space and trim. -/
def filterNonSpeechTags (text : String) (preserveWhitespace : Bool := false) : String :=
  let filtered := nonSpeechTagPatterns.foldl (fun acc p => applyPat p acc) text.data
  if preserveWhitespace then String.mk filtered
  else String.mk (jsTrim (collapseWsRun filtered))

example : filterNonSpeechTags "ja..." = "ja..." := by decide
example : filterNonSpeechTags "[Musik] ja" = "ja" := by decide
example : filterNonSpeechTags " (Musik)  hallo  *Lachen* " = "hallo" := by decide
example : filterNonSpeechTags "*nervöses Lachen* gut" = "gut" := by decide
example : filterNonSpeechTags "Das ist ein vollständiger, klarer Satz mit genug Wörtern."
    = "Das ist ein vollständiger, klarer Satz mit genug Wörtern." := by decide

/-! ### Data model (spec section 3 / source lines 597–664) -/

/-- A transcribed segment, as built by the queue worker (source lines 1955–1962). -/
structure TranscriptSegment where
  id : Nat
  text : String
  startTime : ℚ
  endTime : ℚ
  audioFile : Option String
  isUncertain : Bool
deriving DecidableEq

/-- A chunk delivered by the recorder's `ondataavailable`.  The byte size is
what the program observes; the capture time is model bookkeeping that lets the
theorems speak about which audio a sealed blob spans. -/
structure Chunk where
  time : Nat
  size : Nat
deriving DecidableEq

/-- A sealed audio blob: the concatenation of the buffered chunks. -/
structure Blob where
  chunks : List Chunk
deriving DecidableEq

/-- `blob.size` in bytes. -/
def Blob.size (b : Blob) : Nat := (b.chunks.map Chunk.size).sum

/-- An item of `transcriptionQueueRef` (source lines 610–615 and 1834–1839). -/
structure QueueItem where
  audioBlob : Blob
  segmentIndex : Nat
  startTime : ℚ
  audioFilePath : Option String
deriving DecidableEq

/-- What the transcription collaborator returns on success: recognized text and
the decoded audio duration in seconds (spec section 6). -/
structure TranscribeResult where
  text : String
  durationSeconds : ℚ
deriving DecidableEq

/-! ### Uncertainty heuristic (source lines 1943–1952) -/

/-- `"..."` as a character list. -/
def ellipsisMarker : List Char := "...".data

/-- The worker's uncertainty heuristic, source lines 1943–1952: strip tags,
then flag when there is essentially no text left, or when the (non-trivially
long) text has ≤ 2 words for > 3 s of audio, contains `"..."`, or contains a
character repeated 4+ times (`/(.)\1{3,}/`). -/
def segmentIsUncertain (segmentText : String) (audioDuration : ℚ) : Bool :=
  let textWithoutTags := (filterNonSpeechTags segmentText).data
  let hasActualSpeech := !textWithoutTags.isEmpty && decide (2 ≤ textWithoutTags.length)
  let wordCount := if textWithoutTags.isEmpty then 0 else (jsSplitWs textWithoutTags).length
  let hasRepeatedChars := jsRepeat4 textWithoutTags
  let hasEllipsis := containsSub ellipsisMarker textWithoutTags
  let tooFewWordsForDuration := decide (wordCount ≤ 2) && decide (3 < audioDuration)
  (hasActualSpeech && (tooFewWordsForDuration || hasEllipsis || hasRepeatedChars)) ||
    !hasActualSpeech

/-- The uncertainty condition in the words of the specification: after
stripping, either essentially no text remains (fewer than 2 characters), or
the remaining text is non-trivial and has at most 2 (nonempty) words while the
duration exceeds 3 s, or contains an ellipsis marker, or contains some
character repeated 4 or more times consecutively. -/
def specUncertain (segmentText : String) (audioDuration : ℚ) : Bool :=
  let remaining := (filterNonSpeechTags segmentText).data
  let nearEmpty := decide (remaining.length < 2)
  let words := ((jsSplitWs remaining).filter (fun t => !t.isEmpty)).length
  nearEmpty ||
    (decide (2 ≤ remaining.length) &&
      ((decide (words ≤ 2) && decide (3 < audioDuration)) ||
        containsSub ellipsisMarker remaining || anyRepeat4 remaining))

example : segmentIsUncertain "ja..." 4 = true := by decide
example : segmentIsUncertain "Das ist ein vollständiger, klarer Satz mit genug Wörtern." 4 = false := by
  decide

/-! ### Tooltip reconstruction (source lines 803–824) -/

/-- The reason list built by `getUncertainTooltip` (source lines 806–822); the
early return for a segment not flagged uncertain yields no reasons. -/
def uncertainReasons (segment : TranscriptSegment) : List String :=
  if segment.isUncertain = false then []
  else
    let text := segment.text
    let without := (filterNonSpeechTags text).data
    let wordCount :=
      if without.isEmpty then 0 else ((jsSplitWs without).filter (fun t => !t.isEmpty)).length
    let duration : ℚ := max 0 (segment.endTime - segment.startTime)
    let hasRepeatedChars := jsRepeat4 without
    let hasEllipsis := containsSub ellipsisMarker without
    let tooFewWordsForDuration := decide (wordCount ≤ 2) && decide (3 < duration)
    let hasActualSpeech := !without.isEmpty && decide (2 ≤ without.length)
    if !hasActualSpeech then ["Kaum oder kein erkannter Sprachinhalt."]
    else
      (if tooFewWordsForDuration then
        ["Nur wenige Wörter für die Aufnahmedauer – Transkription könnte unvollständig sein."]
       else []) ++
      (if hasEllipsis then ["Pausen oder Abbrüche (\"…\") in der Erkennung."] else []) ++
      (if hasRepeatedChars then
        ["Wiederholte Zeichen (z.B. Dehnungen) – Erkennung möglicherweise unsicher."]
       else [])

/-- Source lines 804–824, `getUncertainTooltip`. -/
def getUncertainTooltip (segment : TranscriptSegment) : String :=
  if segment.isUncertain = false then "Unsichere Erkennung"
  else if 0 < (uncertainReasons segment).length then
    String.intercalate " " (uncertainReasons segment)
  else "Unsichere Erkennung – bitte prüfen."

/-! ### The transcription queue worker (source lines 1855–2005)

The worker drains the queue strictly in order, one item at a time.  The two
provider paths (local Whisper and Whisper API) are abstracted at the
collaborator boundary of spec section 6: `transcribe` returns recognized text
plus the decoded duration, or an error string (API error response, missing
key, conversion failure, or a thrown exception — all of which the source
surfaces via `setError` and then continues with the next item).  Both paths
skip blobs whose decoded duration is under 0.5 s (`audioDuration < 0.5` on
the API path, `audioData.length < 8000` at 16 kHz on the local path), and
both skip results whose trimmed text has fewer than 2 characters.  The UI
status updates and the external per-segment persistence calls are elided;
`errors` is the user-visible error channel (`setError`). -/
def processTranscriptionQueue
    (transcribe : Blob → Except String TranscribeResult) :
    List QueueItem → List TranscriptSegment → String → List String →
    List TranscriptSegment × String × List String
  | [], segments, transcript, errors => (segments, transcript, errors)
  | item :: rest, segments, transcript, errors =>
    match transcribe item.audioBlob with
    | .error e =>
      processTranscriptionQueue transcribe rest segments transcript (errors ++ [e])
    | .ok r =>
      if r.durationSeconds < 1/2 then
        processTranscriptionQueue transcribe rest segments transcript errors
      else
        let segmentText := String.mk (jsTrim r.text.data)
        if segmentText.data.length < 2 then
          processTranscriptionQueue transcribe rest segments transcript errors
        else
          let isUncertain := segmentIsUncertain segmentText r.durationSeconds
          let newSegment : TranscriptSegment :=
            { id := item.segmentIndex
              text := segmentText
              startTime := item.startTime
              endTime := item.startTime + r.durationSeconds
              audioFile := item.audioFilePath
              isUncertain := isUncertain }
          let textToAdd := if isUncertain then "❓«" ++ segmentText ++ "»" else segmentText
          let transcript1 := if transcript = "" then textToAdd else transcript ++ " " ++ textToAdd
          processTranscriptionQueue transcribe rest (segments ++ [newSegment]) transcript1 errors

/-! ### Live session state (the mutable refs of source lines 597–664) -/

/-- A `MediaRecorder`: `recState = true` while recording, `false` once
`stop()` has been called (`state === "inactive"`). -/
structure MediaRecorderModel where
  recState : Bool
deriving DecidableEq

/-- The closed-over mutable session state of the Live-Mode pipeline: the
`useRef` cells coordinating the VAD loop, the segment recorder and the
transcription queue, plus the session's segment list, transcript and the
user-visible error channel.  `savedAudio` logs the `saveAudioToProject`
calls (external persistence); `liveAnimation` stands for the pending
`requestAnimationFrame` handle. -/
structure LiveState where
  liveModeActive : Bool
  liveAnimation : Bool
  mediaRecorder : Option MediaRecorderModel
  recordingStream : Bool
  audioChunks : List Chunk
  isProcessingSegment : Bool
  recordingStartTime : Nat
  liveAudioBlobs : List (Blob × ℚ)
  transcriptionQueue : List QueueItem
  silenceStart : Option Nat
  silenceCountdown : Option ℤ
  currentProject : Option String
  savedAudio : List (String × Nat)
  isTranscribing : Bool
  segments : List TranscriptSegment
  transcript : String
  errors : List String
deriving DecidableEq

/-- Source lines 1761–1852, `processLiveSegment`: seal the buffered audio.
Guarded re-entrancy and a silent early return when no recorder or stream is
active; otherwise: stop the recorder (the blob is the buffered chunks plus
any final chunks `flush` delivered by `stop()`), reset the chunk buffer,
restart a fresh recorder when still live (otherwise the ref keeps pointing at
the now-inactive recorder), release the processing lock, and then — only if
the blob has at least 1000 bytes — save the audio via the external `save`
collaborator, record the blob, and enqueue it for transcription with
`segmentIndex = liveAudioBlobs.length` and `startTime = (now - recordingStartTime)/1000`
(the exact rational, written with `Rat.divInt`). -/
def processLiveSegment (st : LiveState) (now : Nat) (flush : List Chunk)
    (save : String → Nat → Blob → Option String) : LiveState :=
  if st.isProcessingSegment then st
  else
    match st.mediaRecorder with
    | none => st
    | some _ =>
      if st.recordingStream = false then st
      else
        let segmentStartTime : ℚ := Rat.divInt ((now : ℤ) - (st.recordingStartTime : ℤ)) 1000
        let audioBlob : Blob := ⟨st.audioChunks ++ flush⟩
        let st1 : LiveState :=
          { st with
            audioChunks := []
            mediaRecorder :=
              if st.liveModeActive && st.recordingStream then some ⟨true⟩ else some ⟨false⟩
            isProcessingSegment := false }
        if audioBlob.size < 1000 then st1
        else
          let segmentIndex := st1.liveAudioBlobs.length
          let audioFilePath : Option String :=
            match st1.currentProject with
            | some pid => save pid segmentIndex audioBlob
            | none => none
          let st2 : LiveState :=
            match st1.currentProject with
            | some pid => { st1 with savedAudio := st1.savedAudio ++ [(pid, segmentIndex)] }
            | none => st1
          { st2 with
            liveAudioBlobs := st2.liveAudioBlobs ++ [(audioBlob, segmentStartTime)]
            transcriptionQueue :=
              st2.transcriptionQueue ++
                [{ audioBlob := audioBlob
                   segmentIndex := segmentIndex
                   startTime := segmentStartTime
                   audioFilePath := audioFilePath }] }

/-- Source lines 1701–1747, `checkVoiceActivity`: one VAD tick.  Constants
from lines 1696–1698: silence threshold 15, minimum chunk count 15;
`silenceDuration` is `settings?.liveIdleTime || 3000`.  Returns the updated
state and whether this tick invoked `processLiveSegment()` (fired without
being awaited — the returned flag is the un-awaited invocation). -/
def checkVoiceActivity (silenceDuration : Nat) (st : LiveState) (now : Nat)
    (average : ℚ) : LiveState × Bool :=
  if st.liveModeActive = false then ({ st with silenceCountdown := none }, false)
  else if average < 15 then
    if 15 ≤ st.audioChunks.length then
      match st.silenceStart with
      | none => ({ st with silenceStart := some now }, false)
      | some s =>
        let silenceTime := now - s
        let remaining : ℤ := max 0 ((silenceDuration : ℤ) - (silenceTime : ℤ))
        if silenceDuration < silenceTime ∧ st.isProcessingSegment = false then
          ({ st with silenceStart := none, silenceCountdown := none }, true)
        else ({ st with silenceCountdown := some remaining }, false)
    else ({ st with silenceStart := none, silenceCountdown := none }, false)
  else ({ st with silenceStart := none, silenceCountdown := none }, false)

/-- Feed a sequence of VAD ticks `(now, average, newChunks)`: the recorder
appends `newChunks` to the buffer, then `checkVoiceActivity` runs.  Returns
the final state and whether any tick invoked a seal. -/
def vadFeed (silenceDuration : Nat) : LiveState → List (Nat × ℚ × List Chunk) → LiveState × Bool
  | st, [] => (st, false)
  | st, (t, avg, cs) :: rest =>
    match checkVoiceActivity silenceDuration { st with audioChunks := st.audioChunks ++ cs } t avg with
    | (st2, req) =>
      match vadFeed silenceDuration st2 rest with
      | (stf, anyReq) => (stf, req || anyReq)

/-- One 100 ms step of a live session: the recorder (started with
`start(100)`) delivers one chunk of `chunkSize` bytes, the VAD tick runs, and
a triggered seal runs `processLiveSegment` at the same time.  Returns the
times at which seals were invoked. -/
def liveTick (silenceDuration chunkSize : Nat) (avgOf : Nat → ℚ)
    (save : String → Nat → Blob → Option String) (st : LiveState) (t : Nat) :
    LiveState × List Nat :=
  match checkVoiceActivity silenceDuration
      { st with audioChunks := st.audioChunks ++ [⟨t, chunkSize⟩] } t (avgOf t) with
  | (st2, req) => if req then (processLiveSegment st2 t [] save, [t]) else (st2, [])

/-- Run `liveTick` over a schedule of times, collecting all seal times. -/
def runLive (silenceDuration chunkSize : Nat) (avgOf : Nat → ℚ)
    (save : String → Nat → Blob → Option String) :
    LiveState → List Nat → LiveState × List Nat
  | st, [] => (st, [])
  | st, t :: ts =>
    match liveTick silenceDuration chunkSize avgOf save st t with
    | (st1, seals1) =>
      match runLive silenceDuration chunkSize avgOf save st1 ts with
      | (st2, seals2) => (st2, seals1 ++ seals2)

/-- The state right after `startLiveMode` (source lines 1640–1750): fresh
session, recorder running, VAD loop scheduled, `recordingStartTime = 0`,
in browser mode (no project, so no audio persistence). -/
def freshLiveState : LiveState :=
  { liveModeActive := true
    liveAnimation := true
    mediaRecorder := some ⟨true⟩
    recordingStream := true
    audioChunks := []
    isProcessingSegment := false
    recordingStartTime := 0
    liveAudioBlobs := []
    transcriptionQueue := []
    silenceStart := none
    silenceCountdown := none
    currentProject := none
    savedAudio := []
    isTranscribing := false
    segments := []
    transcript := ""
    errors := [] }

/-- The end-to-end scenario of spec section 8, property 7: 100 ms ticks over
5.5 s of session time. -/
def scenarioTimes : List Nat := (List.range 55).map (fun i => (i + 1) * 100)

/-- Loudness of the scenario: loud (average 100) for the first 2 s, then
silence (average 5, below the threshold 15). -/
def scenarioAvg (t : Nat) : ℚ := if t < 2000 then 100 else 5

/-- The scenario run: 2 s of loud audio then continuous silence, idle
threshold 3000 ms, 100-byte chunks every 100 ms. -/
def scenarioRun : LiveState × List Nat :=
  runLive 3000 100 scenarioAvg (fun _ _ _ => none) freshLiveState scenarioTimes

/-! ### The stop sequence (source lines 2007–2113) -/

/-- The observable steps of the stop sequence, in the order the code emits
them. -/
inductive StopEvent where
  | markedInactive : StopEvent
  | cancelledVad : StopEvent
  | waitedForSeal : Nat → StopEvent
  | finalSealInvoked : StopEvent
  | stoppedStream : StopEvent
  | closedAudioContext : StopEvent
  | reportedDraining : Nat → StopEvent
  | drainedQueue : StopEvent
  | savedAudioFiles : List String → StopEvent
  | settled : StopEvent
deriving DecidableEq

/-- `String(id).padStart(4, "0")`. -/
def pad4 (n : Nat) : String :=
  let s := toString n
  String.mk (List.replicate (4 - s.length) '0') ++ s

/-- Source lines 2007–2052, `stopLiveMode`.  In order: synchronously clear
`liveModeActiveRef`; cancel the pending animation frame; if a seal is in
flight, poll it every 100 ms for at most 50 polls (≈ 5 s) and proceed
regardless (`sealFinishPolls` is the number of polls after which the in-flight
seal would finish; if it exceeds the bound the flag is still set when the wait
gives up); if the recorder is not inactive, run one final `processLiveSegment`
(the normal discard-if-too-small / enqueue path); stop the stream's tracks;
close the `AudioContext` and drop the analyser, clearing the silence timer.
No project save happens here. -/
def stopLiveMode (st : LiveState) (now : Nat) (flush : List Chunk)
    (save : String → Nat → Blob → Option String) (sealFinishPolls : Nat) :
    LiveState × List StopEvent :=
  let st1 : LiveState := { st with liveModeActive := false }
  let ev1 := [StopEvent.markedInactive]
  let p2 : LiveState × List StopEvent :=
    if st1.liveAnimation then ({ st1 with liveAnimation := false }, [StopEvent.cancelledVad])
    else (st1, [])
  let p3 : LiveState × List StopEvent :=
    if p2.1.isProcessingSegment then
      ({ p2.1 with isProcessingSegment := decide (50 < sealFinishPolls) },
       [StopEvent.waitedForSeal (min sealFinishPolls 50)])
    else (p2.1, [])
  let p4 : LiveState × List StopEvent :=
    match p3.1.mediaRecorder with
    | some r =>
      if r.recState then (processLiveSegment p3.1 now flush save, [StopEvent.finalSealInvoked])
      else (p3.1, [])
    | none => (p3.1, [])
  let st5 : LiveState := { p4.1 with recordingStream := false, silenceStart := none }
  (st5, ev1 ++ p2.2 ++ p3.2 ++ p4.2 ++ [StopEvent.stoppedStream, StopEvent.closedAudioContext])

/-- Source lines 2054–2113, the stop branch of `toggleLiveMode`: run
`stopLiveMode`; if the queue is nonempty or the worker busy, report the
draining state and wait (polling) until the queue is empty and the worker
idle — the drain itself is the background worker consuming the queue in
FIFO order via `processTranscriptionQueue`; only then perform the final
`audioFiles` project save; finally signal that everything is settled
(`"Fertig - Alle Segmente verarbeitet"`).  The `audioFiles` list at source
line 2101 is mapped over the `segments` closure variable captured by the
stop click's render — the pre-stop snapshot (`st.segments` here), not the
drained session list: the worker's functional `setSegments` updates never
rebind that closure, so segments transcribed during the drain are absent
from this final write. -/
def toggleLiveModeStop (st : LiveState) (now : Nat) (flush : List Chunk)
    (save : String → Nat → Blob → Option String) (sealFinishPolls : Nat)
    (transcribe : Blob → Except String TranscribeResult) :
    LiveState × List StopEvent :=
  let p1 := stopLiveMode st now flush save sealFinishPolls
  let p2 : LiveState × List StopEvent :=
    if 0 < p1.1.transcriptionQueue.length || p1.1.isTranscribing then
      let drained :=
        processTranscriptionQueue transcribe p1.1.transcriptionQueue p1.1.segments
          p1.1.transcript p1.1.errors
      ({ p1.1 with
          transcriptionQueue := []
          isTranscribing := false
          segments := drained.1
          transcript := drained.2.1
          errors := drained.2.2 },
       [StopEvent.reportedDraining p1.1.transcriptionQueue.length, StopEvent.drainedQueue])
    else (p1.1, [])
  let p3 : LiveState × List StopEvent :=
    match p2.1.currentProject with
    | some _ =>
      let audioFiles := st.segments.map (fun seg =>
        match seg.audioFile with
        | some f => f
        | none => "audio/segment_" ++ pad4 seg.id ++ ".webm")
      (p2.1, [StopEvent.savedAudioFiles audioFiles])
    | none => (p2.1, [])
  (p3.1, p1.2 ++ p2.2 ++ p3.2 ++ [StopEvent.settled])

/-! ### Structural facts about trim, collapse and split -/

theorem dropWhile_head_false (p : Char → Bool) :
    ∀ (l : List Char) (c : Char) (cs : List Char), l.dropWhile p = c :: cs → p c = false := by
  intro l
  induction l with
  | nil => intro c cs h; simp [List.dropWhile] at h
  | cons a as ih =>
    intro c cs h
    by_cases hp : p a
    · rw [List.dropWhile_cons, if_pos hp] at h
      exact ih c cs h
    · rw [List.dropWhile_cons, if_neg hp] at h
      obtain ⟨rfl, -⟩ := List.cons.injEq .. ▸ h
      simpa using hp

theorem mem_of_mem_dropWhile (p : Char → Bool) :
    ∀ (l : List Char) (a : Char), a ∈ l.dropWhile p → a ∈ l := by
  intro l
  induction l with
  | nil => simp [List.dropWhile]
  | cons b bs ih =>
    intro a ha
    by_cases hp : p b
    · rw [List.dropWhile_cons, if_pos hp] at ha
      exact List.mem_cons_of_mem b (ih a ha)
    · rwa [List.dropWhile_cons, if_neg hp] at ha

theorem getLast?_dropWhile (p : Char → Bool) :
    ∀ (l : List Char), l.dropWhile p ≠ [] → (l.dropWhile p).getLast? = l.getLast? := by
  intro l
  induction l with
  | nil => simp
  | cons a as ih =>
    intro h
    by_cases hp : p a
    · rw [List.dropWhile_cons, if_pos hp] at h ⊢
      have has : as ≠ [] := by
        rintro rfl; simp [List.dropWhile] at h
      obtain ⟨b, bs, rfl⟩ := List.exists_cons_of_ne_nil has
      rw [ih h, List.getLast?_cons_cons]
    · rw [List.dropWhile_cons, if_neg hp]

theorem mem_jsTrim (x : List Char) (a : Char) (h : a ∈ jsTrim x) : a ∈ x := by
  unfold jsTrim at h
  rw [List.mem_reverse] at h
  have h2 := mem_of_mem_dropWhile jsWsB _ _ h
  rw [List.mem_reverse] at h2
  exact mem_of_mem_dropWhile jsWsB _ _ h2

theorem jsTrim_getLast_ws (x : List Char) (a : Char) (h : (jsTrim x).getLast? = some a) :
    jsWsB a = false := by
  unfold jsTrim at h
  rw [List.getLast?_reverse] at h
  obtain ⟨cs, hcs⟩ : ∃ cs, ((x.dropWhile jsWsB).reverse.dropWhile jsWsB) = a :: cs := by
    cases hz : ((x.dropWhile jsWsB).reverse.dropWhile jsWsB) with
    | nil => rw [hz] at h; simp at h
    | cons b bs => rw [hz] at h; simp at h; exact ⟨bs, by rw [h]⟩
  exact dropWhile_head_false jsWsB _ a cs hcs

theorem jsTrim_head_ws (x : List Char) (c : Char) (cs : List Char)
    (h : jsTrim x = c :: cs) : jsWsB c = false := by
  unfold jsTrim at h
  set z := (x.dropWhile jsWsB).reverse.dropWhile jsWsB with hz
  have hzne : z ≠ [] := by
    rintro hnil; rw [hnil] at h; simp at h
  have h1 : z.getLast? = some c := by
    have : z.reverse.head? = some c := by rw [h]; rfl
    rwa [List.head?_reverse] at this
  have h2 : z.getLast? = (x.dropWhile jsWsB).reverse.getLast? := getLast?_dropWhile jsWsB _ hzne
  rw [List.getLast?_reverse] at h2
  have h3 : (x.dropWhile jsWsB).head? = some c := by rw [← h2, h1]
  obtain ⟨ds, hds⟩ : ∃ ds, x.dropWhile jsWsB = c :: ds := by
    cases hy : x.dropWhile jsWsB with
    | nil => rw [hy] at h3; simp at h3
    | cons d ds => rw [hy] at h3; simp at h3; exact ⟨ds, by rw [h3]⟩
  exact dropWhile_head_false jsWsB _ c ds hds

theorem mem_collapseGo :
    ∀ (l : List Char) (b : Bool) (a : Char), a ∈ collapseGo b l → a = ' ' ∨ jsWsB a = false := by
  intro l
  induction l with
  | nil => intro b a ha; simp [collapseGo] at ha
  | cons c rest ih =>
    intro b a ha
    by_cases hc : jsWsB c
    · cases b with
      | true => rw [show collapseGo true (c :: rest) = collapseGo true rest by
                      simp [collapseGo, hc]] at ha
                exact ih true a ha
      | false =>
        rw [show collapseGo false (c :: rest) = ' ' :: collapseGo true rest by
              simp [collapseGo, hc]] at ha
        rcases List.mem_cons.mp ha with h | h
        · exact Or.inl h
        · exact ih true a h
    · rw [show collapseGo b (c :: rest) = c :: collapseGo false rest by
            simp [collapseGo, hc]] at ha
      rcases List.mem_cons.mp ha with h | h
      · subst h; exact Or.inr (by simpa using hc)
      · exact ih false a h

theorem newline_not_mem_clean (x : List Char) : '\n' ∉ jsTrim (collapseWsRun x) := by
  intro h
  have h2 : '\n' ∈ collapseWsRun x := mem_jsTrim _ _ h
  rcases mem_collapseGo x false '\n' h2 with h3 | h3
  · exact absurd h3 (by decide)
  · exact absurd h3 (by decide)

theorem jsRepeat4_eq_any : ∀ (l : List Char), '\n' ∉ l → jsRepeat4 l = anyRepeat4 l
  | [], _ => rfl
  | [_], _ => rfl
  | [_, _], _ => rfl
  | [_, _, _], _ => rfl
  | a :: b :: c :: d :: rest, h => by
    have ha : a ≠ '\n' := fun he => h (he ▸ List.mem_cons_self a _)
    have ih := jsRepeat4_eq_any (b :: c :: d :: rest)
      (fun hm => h (List.mem_cons_of_mem a hm))
    simp only [jsRepeat4, anyRepeat4, ih, ha, decide_not]
    simp [ha]

/-- A word boundary in `splitWsGo` never emits an empty token when the input
neither starts (unless the accumulator is nonempty) nor ends with whitespace. -/
theorem splitWsGo_no_empty :
    ∀ (n : Nat) (l : List Char), l.length ≤ n →
      (∀ acc : List Char,
        (acc = [] → ∃ c cs, l = c :: cs ∧ jsWsB c = false) →
        (∀ a, l.getLast? = some a → jsWsB a = false) →
        [] ∉ splitWsGo false l acc) ∧
      (∀ acc : List Char, l ≠ [] →
        (∀ a, l.getLast? = some a → jsWsB a = false) →
        [] ∉ splitWsGo true l acc) := by
  intro n
  induction n with
  | zero =>
    intro l hl
    have : l = [] := List.length_eq_zero.mp (Nat.le_zero.mp hl)
    subst this
    constructor
    · intro acc hacc _
      have hne : acc ≠ [] := by
        intro he; obtain ⟨c, cs, hcs, -⟩ := hacc he; simp at hcs
      simp only [splitWsGo, List.mem_singleton]
      intro he
      exact hne (by simpa using he.symm)
    · intro acc hne _; exact absurd rfl hne
  | succ m ih =>
    intro l hl
    cases l with
    | nil =>
      constructor
      · intro acc hacc _
        have hne : acc ≠ [] := by
          intro he; obtain ⟨c, cs, hcs, -⟩ := hacc he; simp at hcs
        simp only [splitWsGo, List.mem_singleton]
        intro he
        exact hne (by simpa using he.symm)
      · intro acc hne _; exact absurd rfl hne
    | cons c rest =>
      have hrest : rest.length ≤ m := by simpa using hl
      have hlastrest : (∀ a, (c :: rest).getLast? = some a → jsWsB a = false) →
          ∀ a, rest.getLast? = some a → jsWsB a = false := by
        intro hlast a ha
        cases rest with
        | nil => simp at ha
        | cons b bs => exact hlast a (by rwa [List.getLast?_cons_cons])
      constructor
      · intro acc hacc hlast
        by_cases hc : jsWsB c
        · have hne : acc ≠ [] := by
            intro he
            obtain ⟨c2, cs2, hcs2, hws2⟩ := hacc he
            obtain ⟨rfl, -⟩ := List.cons.injEq .. ▸ hcs2
            exact absurd hws2 (by simp [hc])
          rw [show splitWsGo false (c :: rest) acc = acc.reverse :: splitWsGo true rest [] by
                simp [splitWsGo, hc]]
          intro hmem
          rcases List.mem_cons.mp hmem with h | h
          · exact hne (by simpa using h.symm)
          · have hrne : rest ≠ [] := by
              rintro rfl
              exact absurd (hlast c (by simp)) (by simp [hc])
            exact (ih rest hrest).2 [] hrne (hlastrest hlast) h
        · rw [show splitWsGo false (c :: rest) acc = splitWsGo false rest (c :: acc) by
                simp [splitWsGo, hc]]
          exact (ih rest hrest).1 (c :: acc) (fun he => by simp at he) (hlastrest hlast)
      · intro acc _ hlast
        by_cases hc : jsWsB c
        · rw [show splitWsGo true (c :: rest) acc = splitWsGo true rest [] by
                simp [splitWsGo, hc]]
          have hrne : rest ≠ [] := by
            rintro rfl
            exact absurd (hlast c (by simp)) (by simp [hc])
          exact (ih rest hrest).2 [] hrne (hlastrest hlast)
        · rw [show splitWsGo true (c :: rest) acc = splitWsGo false rest [c] by
                simp [splitWsGo, hc]]
          exact (ih rest hrest).1 [c] (fun he => by simp at he) (hlastrest hlast)

/-- The tokens of the JS whitespace-split of a trimmed string are all nonempty. -/
theorem splitWs_trim_no_empty (x : List Char) (h : jsTrim x ≠ []) :
    [] ∉ jsSplitWs (jsTrim x) := by
  obtain ⟨c, cs, hcons⟩ := List.exists_cons_of_ne_nil h
  have hhead : jsWsB c = false := jsTrim_head_ws x c cs hcons
  exact (splitWsGo_no_empty (jsTrim x).length (jsTrim x) le_rfl).1 []
    (fun _ => ⟨c, cs, hcons, hhead⟩) (jsTrim_getLast_ws x)

/-- Consequently `split(/\s+/).length` and `split(/\s+/).filter(Boolean).length`
agree on trimmed strings (the two word counts of the source). -/
theorem splitWs_filter_length (x : List Char) (h : jsTrim x ≠ []) :
    ((jsSplitWs (jsTrim x)).filter (fun t => !t.isEmpty)).length
      = (jsSplitWs (jsTrim x)).length := by
  have hall : ∀ t ∈ jsSplitWs (jsTrim x), (!t.isEmpty) = true := by
    intro t ht
    have : t ≠ [] := by
      rintro rfl; exact splitWs_trim_no_empty x h ht
    simpa [List.isEmpty_iff]
  rw [List.filter_eq_self.mpr hall]

/-- In a Bool context, `textWithoutTags && textWithoutTags.length >= 2` is just
the length test. -/
theorem hasSpeech_eq (l : List Char) :
    (!l.isEmpty && decide (2 ≤ l.length)) = decide (2 ≤ l.length) := by
  cases l <;> simp

/-- `3 < max 0 d` is `3 < d` (the tooltip clamps the duration at 0, the worker
does not; the clamp cannot matter against the 3-second bound). -/
theorem max0_three_lt (d : ℚ) : decide (3 < max 0 d) = decide (3 < d) := by
  by_cases h : 3 < d
  · simp [h, lt_max_iff]
  · have h2 : ¬ 3 < max 0 d := by
      rw [lt_max_iff]
      push_neg
      exact ⟨by norm_num, not_lt.mp h⟩
    simp [h, h2]

/-- C4: for every segment completed by the queue worker, after stripping
non-speech tags, `isUncertain` is true exactly when essentially no text
remains (fewer than 2 characters), or the remaining text is non-trivial and
has at most 2 words while the duration exceeds 3 s, or contains `"..."`, or
contains a character repeated 4+ times consecutively; in particular
`"ja..."` at 4.0 s is uncertain and the full German sentence at 4.0 s is not. -/
theorem c4_uncertainty_heuristic :
    (∀ (segmentText : String) (audioDuration : ℚ),
      segmentIsUncertain segmentText audioDuration = specUncertain segmentText audioDuration) ∧
    segmentIsUncertain "ja..." 4 = true ∧
    segmentIsUncertain "Das ist ein vollständiger, klarer Satz mit genug Wörtern." 4 = false := by
  refine ⟨fun s d => ?_, by decide, by decide⟩
  have hrepr : (filterNonSpeechTags s).data
      = jsTrim (collapseWsRun
          (nonSpeechTagPatterns.foldl (fun acc p => applyPat p acc) s.data)) := by
    simp [filterNonSpeechTags]
  simp only [segmentIsUncertain, specUncertain]
  rw [hrepr]
  set w := jsTrim (collapseWsRun
    (nonSpeechTagPatterns.foldl (fun acc p => applyPat p acc) s.data)) with hw
  by_cases hlen : 2 ≤ w.length
  · have hwne : w ≠ [] := by
      intro he; rw [he] at hlen; simp at hlen
    have hie : w.isEmpty = false := by simpa [List.isEmpty_iff]
    have hcount : ((jsSplitWs w).filter (fun t => !t.isEmpty)).length
        = (jsSplitWs w).length := by
      rw [hw]
      exact splitWs_filter_length _ (by rw [← hw]; exact hwne)
    have hrep : jsRepeat4 w = anyRepeat4 w :=
      jsRepeat4_eq_any w (by rw [hw]; exact newline_not_mem_clean _)
    rw [hasSpeech_eq]
    simp [hie, hlen, Nat.not_lt.mpr hlen, hcount, hrep]
  · rw [hasSpeech_eq]
    have h2 : decide (2 ≤ w.length) = false := by simpa using hlen
    have h3 : decide (w.length < 2) = true := by
      simpa using Nat.lt_of_not_le (by simpa using hlen)
    simp [h2, h3]

/-- C10: the tooltip reconstruction derives at least one concrete reason
exactly for the segments the worker flagged: for any segment whose text is
unedited and whose `endTime - startTime` equals the duration used at
classification, `uncertainReasons` is nonempty iff `isUncertain` is true. -/
theorem c10_tooltip_matches_worker (s : TranscriptSegment) (d : ℚ)
    (h1 : s.endTime - s.startTime = d)
    (h2 : s.isUncertain = segmentIsUncertain s.text d) :
    (uncertainReasons s ≠ [] ↔ s.isUncertain = true) := by
  cases hu : s.isUncertain with
  | false =>
    rw [show uncertainReasons s = [] by simp [uncertainReasons, hu]]
    simp
  | true =>
    rw [hu] at h2
    simp only [iff_true]
    have hrepr : (filterNonSpeechTags s.text).data
        = jsTrim (collapseWsRun
            (nonSpeechTagPatterns.foldl (fun acc p => applyPat p acc) s.text.data)) := by
      simp [filterNonSpeechTags]
    simp only [uncertainReasons, hu, if_false]
    rw [h1, hrepr]
    set w := jsTrim (collapseWsRun
      (nonSpeechTagPatterns.foldl (fun acc p => applyPat p acc) s.text.data)) with hw
    simp only [segmentIsUncertain] at h2
    rw [hrepr] at h2
    by_cases hlen : 2 ≤ w.length
    · have hwne : w ≠ [] := fun he => by rw [he] at hlen; simp at hlen
      have hie : w.isEmpty = false := by simpa [List.isEmpty_iff]
      have hA : decide (2 ≤ w.length) = true := by simpa using hlen
      have hcount : ((jsSplitWs w).filter (fun t => !t.isEmpty)).length
          = (jsSplitWs w).length := by
        rw [hw]
        exact splitWs_filter_length _ (by rw [← hw]; exact hwne)
      rw [hasSpeech_eq, hA] at h2
      simp only [hie, Bool.false_eq_true, if_false, Bool.true_and, Bool.not_true,
        Bool.or_false] at h2
      rw [hasSpeech_eq, hA]
      simp only [hie, Bool.false_eq_true, if_false, hcount, max0_three_lt, Bool.not_true]
      rcases (Bool.or_eq_true _ _).mp h2.symm with hf | hf
      · rcases (Bool.or_eq_true _ _).mp hf with hf2 | hf2
        · simp [hf2]
        · simp [hf2, List.append_eq_nil]
      · simp [hf, List.append_eq_nil]
    · have hA : decide (2 ≤ w.length) = false := by simpa using hlen
      rw [hasSpeech_eq, hA]
      simp

/-! ### FIFO order and error isolation of the queue worker -/

/-- When the collaborator succeeds on every item (with a duration of at least
0.5 s and at least 2 characters of trimmed text), the worker appends exactly
one segment per item, in queue order, carrying the item's pre-assigned id. -/
theorem processQueue_ids_append (transcribe : Blob → Except String TranscribeResult) :
    ∀ (items : List QueueItem) (segs : List TranscriptSegment) (tr : String)
      (er : List String),
      (∀ item ∈ items, ∃ r, transcribe item.audioBlob = .ok r ∧
        ¬ r.durationSeconds < 1/2 ∧ 2 ≤ (jsTrim r.text.data).length) →
      (processTranscriptionQueue transcribe items segs tr er).1.map TranscriptSegment.id
        = segs.map TranscriptSegment.id ++ items.map QueueItem.segmentIndex := by
  intro items
  induction items with
  | nil => intro segs tr er _; simp [processTranscriptionQueue]
  | cons item rest ih =>
    intro segs tr er h
    obtain ⟨r, hok, hd, ht⟩ := h item (List.mem_cons_self item rest)
    have hrest := fun i hi => h i (List.mem_cons_of_mem item hi)
    have hlen : ¬ (String.mk (jsTrim r.text.data)).data.length < 2 := by
      simpa using Nat.not_lt.mpr ht
    simp only [processTranscriptionQueue, hok]
    rw [if_neg hd, if_neg hlen, ih _ _ _ hrest]
    simp

/-- C2: the worker consumes queued segments strictly in enqueue order and
appends the resulting `TranscriptSegment`s in that same order: with every
transcription succeeding (whatever its latency — the worker awaits each call,
so latency cannot reorder), the final segment list carries exactly the items'
pre-assigned ids in queue order, and strictly increasing enqueue ids yield a
strictly increasing (never completion-ordered) segment list. -/
theorem c2_fifo_order (transcribe : Blob → Except String TranscribeResult)
    (items : List QueueItem)
    (h : ∀ item ∈ items, ∃ r, transcribe item.audioBlob = .ok r ∧
      ¬ r.durationSeconds < 1/2 ∧ 2 ≤ (jsTrim r.text.data).length)
    (hinc : List.Chain' (· < ·) (items.map QueueItem.segmentIndex)) :
    (processTranscriptionQueue transcribe items [] "" []).1.map TranscriptSegment.id
      = items.map QueueItem.segmentIndex ∧
    List.Chain' (· < ·)
      ((processTranscriptionQueue transcribe items [] "" []).1.map TranscriptSegment.id) := by
  have hids := processQueue_ids_append transcribe items [] "" [] h
  simp only [List.map_nil, List.nil_append] at hids
  exact ⟨hids, hids ▸ hinc⟩

/-- C3: a failing transcription surfaces its error message on the user-visible
error channel, produces no segment, and does not stop the worker: with three
queued items and the collaborator failing exactly on the second, the final
segment list holds the first and third items' segments in that order, and
exactly one error is surfaced. -/
theorem c3_error_isolation (transcribe : Blob → Except String TranscribeResult)
    (i1 i2 i3 : QueueItem) (r1 r3 : TranscribeResult) (e : String)
    (h1 : transcribe i1.audioBlob = .ok r1) (h1d : ¬ r1.durationSeconds < 1/2)
    (h1t : 2 ≤ (jsTrim r1.text.data).length)
    (h2 : transcribe i2.audioBlob = .error e)
    (h3 : transcribe i3.audioBlob = .ok r3) (h3d : ¬ r3.durationSeconds < 1/2)
    (h3t : 2 ≤ (jsTrim r3.text.data).length) :
    (processTranscriptionQueue transcribe [i1, i2, i3] [] "" []).1.map TranscriptSegment.id
      = [i1.segmentIndex, i3.segmentIndex] ∧
    (processTranscriptionQueue transcribe [i1, i2, i3] [] "" []).2.2 = [e] := by
  have h1len : ¬ (String.mk (jsTrim r1.text.data)).data.length < 2 := by
    simpa using Nat.not_lt.mpr h1t
  have h3len : ¬ (String.mk (jsTrim r3.text.data)).data.length < 2 := by
    simpa using Nat.not_lt.mpr h3t
  simp only [processTranscriptionQueue, h1, h2, h3]
  rw [if_neg h1d, if_neg h1len, if_neg h3d, if_neg h3len]
  simp

/-! ### VAD gating and countdown -/

/-- C5: on every tick whose loudness is below the silence threshold but with
fewer than 15 chunks accumulated since the last seal, the silence timer stays
unset, no countdown is surfaced and no seal is triggered — over an arbitrarily
long run of such ticks (the tick times are unconstrained, so the run may
exceed any idle duration). -/
theorem c5_min_chunk_gating (T : Nat) (st : LiveState)
    (ticks : List (Nat × ℚ × List Chunk))
    (hactive : st.liveModeActive = true)
    (hss : st.silenceStart = none) (hsc : st.silenceCountdown = none)
    (havg : ∀ x ∈ ticks, x.2.1 < 15)
    (hchunks : st.audioChunks.length + ((ticks.map (fun x => x.2.2.length)).sum) < 15) :
    (vadFeed T st ticks).2 = false ∧
    (vadFeed T st ticks).1.silenceStart = none ∧
    (vadFeed T st ticks).1.silenceCountdown = none := by
  induction ticks generalizing st with
  | nil => exact ⟨rfl, hss, hsc⟩
  | cons tk rest ih =>
    obtain ⟨t, avg, cs⟩ := tk
    have havg1 : avg < 15 := havg (t, avg, cs) (List.mem_cons_self ..)
    have hsum : st.audioChunks.length + cs.length +
        ((rest.map (fun x => x.2.2.length)).sum) < 15 := by
      simp only [List.map_cons, List.sum_cons] at hchunks
      omega
    have h15 : ¬ 15 ≤ st.audioChunks.length + cs.length := by omega
    set st1 : LiveState := { st with audioChunks := st.audioChunks ++ cs } with hst1
    have hcv : checkVoiceActivity T st1 t avg
        = ({ st1 with silenceStart := none, silenceCountdown := none }, false) := by
      simp [checkVoiceActivity, hst1, hactive, havg1, h15]
    have hnext := ih { st1 with silenceStart := none, silenceCountdown := none }
      hactive rfl rfl (fun x hx => havg x (List.mem_cons_of_mem _ hx))
      (by simp only [hst1]; simpa using hsum)
    simp only [vadFeed, ← hst1, hcv]
    exact ⟨by simp [hnext.1], hnext.2.1, hnext.2.2⟩

/-- C8: while the silence timer runs (started at `s`) on a sub-threshold tick
with enough chunks, the tick surfaces `max 0 (T - e)` as the countdown for the
elapsed silence `e = now - s`; on the tick where `e` exceeds `T` with no seal
in flight, the timer and countdown are cleared instead and the seal sequence
is invoked (the returned flag: `processLiveSegment()` fired, not awaited). -/
theorem c8_countdown (T : Nat) (st : LiveState) (now s : Nat) (avg : ℚ)
    (hactive : st.liveModeActive = true) (havg : avg < 15)
    (hchunks : 15 ≤ st.audioChunks.length) (hss : st.silenceStart = some s) :
    (¬ (T < now - s ∧ st.isProcessingSegment = false) →
      checkVoiceActivity T st now avg =
        ({ st with silenceCountdown := some (max 0 ((T : ℤ) - ((now - s : Nat) : ℤ))) },
         false)) ∧
    ((T < now - s ∧ st.isProcessingSegment = false) →
      checkVoiceActivity T st now avg =
        ({ st with silenceStart := none, silenceCountdown := none }, true)) := by
  constructor
  · intro hno
    simp [checkVoiceActivity, hactive, havg, hchunks, hss, hno]
  · intro hyes
    simp [checkVoiceActivity, hactive, havg, hchunks, hss, hyes]

/-! ### Sealing: discard policy and the missing-recorder guard -/

/-- C6: a sealed blob under 1000 bytes is discarded by `processLiveSegment`
after the seal: nothing is enqueued, no audio file is persisted, no blob is
recorded and no segment can ever result (`segments` untouched and the queue
unchanged), and the monotonic index counter (`liveAudioBlobs.length`) does not
advance; when the blob is large enough, the enqueued item consumes exactly the
next index and the counter advances by one, so indices are consumed only for
queued segments and never reused. -/
theorem c6_small_blob_discarded (st : LiveState) (now : Nat) (flush : List Chunk)
    (save : String → Nat → Blob → Option String) (rcr : MediaRecorderModel)
    (hp : st.isProcessingSegment = false) (hr : st.mediaRecorder = some rcr)
    (hs : st.recordingStream = true) :
    (Blob.size ⟨st.audioChunks ++ flush⟩ < 1000 →
      (processLiveSegment st now flush save).transcriptionQueue = st.transcriptionQueue ∧
      (processLiveSegment st now flush save).liveAudioBlobs = st.liveAudioBlobs ∧
      (processLiveSegment st now flush save).savedAudio = st.savedAudio ∧
      (processLiveSegment st now flush save).segments = st.segments) ∧
    (¬ Blob.size ⟨st.audioChunks ++ flush⟩ < 1000 →
      (processLiveSegment st now flush save).transcriptionQueue.map QueueItem.segmentIndex
        = st.transcriptionQueue.map QueueItem.segmentIndex ++ [st.liveAudioBlobs.length] ∧
      (processLiveSegment st now flush save).liveAudioBlobs.length
        = st.liveAudioBlobs.length + 1) := by
  constructor
  · intro hsmall
    simp [processLiveSegment, hp, hr, hs, hsmall]
  · intro hbig
    cases hcp : st.currentProject with
    | none => simp [processLiveSegment, hp, hr, hs, hbig, hcp]
    | some pid => simp [processLiveSegment, hp, hr, hs, hbig, hcp]

/-- C9 (amended): invoking the seal operation with no active recorder is a
silently swallowed no-op — `processLiveSegment` returns with the session state
entirely unchanged, sealing nothing, enqueueing nothing and surfacing no
error. -/
theorem c9_seal_without_recorder_noop (st : LiveState) (now : Nat)
    (flush : List Chunk) (save : String → Nat → Blob → Option String)
    (h : st.mediaRecorder = none) :
    processLiveSegment st now flush save = st := by
  simp [processLiveSegment, h]

/-- C9 (counterexample to the claim as stated): at a concrete session state
with no recorder, the seal operation returns the state unchanged — in
particular with no error surfaced (`errors` stays empty) — a silent no-op,
not a loud internal failure. -/
theorem c9_counterexample :
    processLiveSegment { freshLiveState with mediaRecorder := none } 100 []
        (fun _ _ _ => none)
      = { freshLiveState with mediaRecorder := none } ∧
    (processLiveSegment { freshLiveState with mediaRecorder := none } 100 []
        (fun _ _ _ => none)).errors = [] := by
  constructor
  · rfl
  · rfl

/-! ### The end-to-end scenario -/

set_option maxRecDepth 40000 in
set_option maxHeartbeats 1000000 in
/-- C7 (counterexample to the claim as stated): in the scenario — 2 s of loud
audio, then continuous silence, idle threshold 3000 ms — the single queued
item's `startTime` is 5.1 (the elapsed session time at the seal, computed as
`(Date.now() - recordingStartTime)/1000` at the moment of the seal), not 0. -/
theorem c7_counterexample :
    scenarioRun.1.transcriptionQueue.map QueueItem.startTime = [mkRat 51 10] ∧
    mkRat 51 10 ≠ 0 := by
  constructor
  · decide
  · decide

set_option maxRecDepth 40000 in
set_option maxHeartbeats 1000000 in
/-- C7 (amended): the scenario triggers exactly one seal, at tick 5100 — about
3000 ms (here 3100 ms) after the silence began at 2000 ms — and the queued
item (index 0) has `startTime` equal to the elapsed session time at the seal,
5.1 s, with its audio blob spanning every chunk captured since the session
start (the full 2 s loud + ~3.1 s silence: chunks at 100, 200, …, 5100 ms). -/
theorem c7_amended :
    scenarioRun.2 = [5100] ∧
    scenarioRun.1.transcriptionQueue.map QueueItem.startTime = [mkRat 51 10] ∧
    scenarioRun.1.transcriptionQueue.map QueueItem.segmentIndex = [0] ∧
    scenarioRun.1.liveAudioBlobs.map (fun p => p.1.chunks.map Chunk.time)
      = [(List.range 51).map (fun i => (i + 1) * 100)] := by
  refine ⟨by decide, by decide, by decide, by decide⟩

/-! ### The stop sequence: ordering -/

/-- Once `liveModeActive` is cleared, a VAD tick clears the countdown and can
never invoke a seal (the guard at the top of `checkVoiceActivity`). -/
theorem checkVoiceActivity_inactive (T : Nat) (st : LiveState) (now : Nat) (avg : ℚ)
    (h : st.liveModeActive = false) :
    checkVoiceActivity T st now avg = ({ st with silenceCountdown := none }, false) := by
  simp [checkVoiceActivity, h]

/-- `processLiveSegment` never touches `liveModeActive` or the bound project,
and only ever appends to the transcription queue. -/
theorem processLiveSegment_preserves (st : LiveState) (now : Nat) (flush : List Chunk)
    (save : String → Nat → Blob → Option String) :
    (processLiveSegment st now flush save).liveModeActive = st.liveModeActive ∧
    (processLiveSegment st now flush save).currentProject = st.currentProject ∧
    ∃ tail, (processLiveSegment st now flush save).transcriptionQueue
      = st.transcriptionQueue ++ tail := by
  cases hcp : st.currentProject with
  | none =>
    simp only [processLiveSegment, hcp]
    split
    · exact ⟨rfl, hcp, [], by simp⟩
    · split
      · exact ⟨rfl, hcp, [], by simp⟩
      · split
        · exact ⟨rfl, hcp, [], by simp⟩
        · split
          · exact ⟨rfl, rfl, [], by simp⟩
          · exact ⟨rfl, rfl, _, rfl⟩
  | some pid =>
    simp only [processLiveSegment, hcp]
    split
    · exact ⟨rfl, hcp, [], by simp⟩
    · split
      · exact ⟨rfl, hcp, [], by simp⟩
      · split
        · exact ⟨rfl, hcp, [], by simp⟩
        · split
          · exact ⟨rfl, rfl, [], by simp⟩
          · exact ⟨rfl, rfl, _, rfl⟩

/-! ### Concrete instantiations -/

/-- A transcription collaborator that always succeeds with a short clear
sentence of 1 s. -/
def witTranscribe : Blob → Except String TranscribeResult :=
  fun _ => .ok ⟨"hallo welt", 1⟩

/-- A queue item with one 1200-byte chunk and pre-assigned index `i`. -/
def witItem (i : Nat) : QueueItem :=
  { audioBlob := ⟨[⟨100 * (i + 1), 1200⟩]⟩
    segmentIndex := i
    startTime := (i : ℚ)
    audioFilePath := none }

theorem c2_fifo_order_witness :
    (processTranscriptionQueue witTranscribe [witItem 0, witItem 1, witItem 2]
        [] "" []).1.map TranscriptSegment.id
      = [witItem 0, witItem 1, witItem 2].map QueueItem.segmentIndex ∧
    List.Chain' (· < ·)
      ((processTranscriptionQueue witTranscribe [witItem 0, witItem 1, witItem 2]
        [] "" []).1.map TranscriptSegment.id) :=
  c2_fifo_order witTranscribe [witItem 0, witItem 1, witItem 2]
    (fun _ _ => ⟨⟨"hallo welt", 1⟩, rfl, by norm_num, by decide⟩)
    (by norm_num [witItem, List.chain'_cons])

/-- A collaborator that fails exactly on two-chunk blobs. -/
def witTranscribe3 : Blob → Except String TranscribeResult := fun b =>
  if b.chunks.length = 2 then .error "Whisper-API-Fehler" else .ok ⟨"hallo welt", 1⟩

/-- The three-item error-isolation scenario: items with 1, 2 and 3 chunks. -/
def witErrItem (n : Nat) : QueueItem :=
  { audioBlob := ⟨List.replicate n ⟨100, 1200⟩⟩
    segmentIndex := n - 1
    startTime := (n : ℚ)
    audioFilePath := none }

theorem c3_error_isolation_witness :
    (processTranscriptionQueue witTranscribe3 [witErrItem 1, witErrItem 2, witErrItem 3]
        [] "" []).1.map TranscriptSegment.id
      = [(witErrItem 1).segmentIndex, (witErrItem 3).segmentIndex] ∧
    (processTranscriptionQueue witTranscribe3 [witErrItem 1, witErrItem 2, witErrItem 3]
        [] "" []).2.2 = ["Whisper-API-Fehler"] :=
  c3_error_isolation witTranscribe3 (witErrItem 1) (witErrItem 2) (witErrItem 3)
    ⟨"hallo welt", 1⟩ ⟨"hallo welt", 1⟩ "Whisper-API-Fehler"
    rfl (by norm_num) (by decide) rfl rfl (by norm_num) (by decide)

theorem c5_min_chunk_gating_witness :
    (vadFeed 3000 freshLiveState [(0, 5, [⟨0, 100⟩]), (2000, 5, []), (5000, 5, [])]).2
      = false ∧
    (vadFeed 3000 freshLiveState
      [(0, 5, [⟨0, 100⟩]), (2000, 5, []), (5000, 5, [])]).1.silenceStart = none ∧
    (vadFeed 3000 freshLiveState
      [(0, 5, [⟨0, 100⟩]), (2000, 5, []), (5000, 5, [])]).1.silenceCountdown = none :=
  c5_min_chunk_gating 3000 freshLiveState [(0, 5, [⟨0, 100⟩]), (2000, 5, []), (5000, 5, [])]
    rfl rfl rfl (by decide) (by decide)

theorem c6_small_blob_discarded_witness :
    (Blob.size ⟨freshLiveState.audioChunks ++ [⟨1000, 500⟩]⟩ < 1000 →
      (processLiveSegment freshLiveState 1000 [⟨1000, 500⟩]
          (fun _ _ _ => none)).transcriptionQueue = freshLiveState.transcriptionQueue ∧
      (processLiveSegment freshLiveState 1000 [⟨1000, 500⟩]
          (fun _ _ _ => none)).liveAudioBlobs = freshLiveState.liveAudioBlobs ∧
      (processLiveSegment freshLiveState 1000 [⟨1000, 500⟩]
          (fun _ _ _ => none)).savedAudio = freshLiveState.savedAudio ∧
      (processLiveSegment freshLiveState 1000 [⟨1000, 500⟩]
          (fun _ _ _ => none)).segments = freshLiveState.segments) ∧
    (¬ Blob.size ⟨freshLiveState.audioChunks ++ [⟨1000, 500⟩]⟩ < 1000 →
      (processLiveSegment freshLiveState 1000 [⟨1000, 500⟩]
          (fun _ _ _ => none)).transcriptionQueue.map QueueItem.segmentIndex
        = freshLiveState.transcriptionQueue.map QueueItem.segmentIndex ++
            [freshLiveState.liveAudioBlobs.length] ∧
      (processLiveSegment freshLiveState 1000 [⟨1000, 500⟩]
          (fun _ _ _ => none)).liveAudioBlobs.length
        = freshLiveState.liveAudioBlobs.length + 1) :=
  c6_small_blob_discarded freshLiveState 1000 [⟨1000, 500⟩] (fun _ _ _ => none) ⟨true⟩
    rfl rfl rfl

/-- A session state 2 s into silence counting: 15 buffered chunks and the
silence timer started at 2000 ms. -/
def c8WitnessState : LiveState :=
  { freshLiveState with
    audioChunks := List.replicate 15 ⟨0, 100⟩
    silenceStart := some 2000 }

theorem c8_countdown_witness :
    (¬ (3000 < 4000 - 2000 ∧ c8WitnessState.isProcessingSegment = false) →
      checkVoiceActivity 3000 c8WitnessState 4000 5 =
        ({ c8WitnessState with
            silenceCountdown := some (max 0 ((3000 : ℤ) - ((4000 - 2000 : Nat) : ℤ))) },
         false)) ∧
    ((3000 < 4000 - 2000 ∧ c8WitnessState.isProcessingSegment = false) →
      checkVoiceActivity 3000 c8WitnessState 4000 5 =
        ({ c8WitnessState with silenceStart := none, silenceCountdown := none }, true)) :=
  c8_countdown 3000 c8WitnessState 4000 2000 5 rfl (by norm_num) (by decide) rfl

theorem c9_seal_without_recorder_noop_witness :
    processLiveSegment { freshLiveState with mediaRecorder := none, recordingStartTime := 5 }
        200 [] (fun _ _ _ => none)
      = { freshLiveState with mediaRecorder := none, recordingStartTime := 5 } :=
  c9_seal_without_recorder_noop
    { freshLiveState with mediaRecorder := none, recordingStartTime := 5 } 200 []
    (fun _ _ _ => none) rfl

/-- The `"ja..."` segment exactly as the worker would build it at 4.0 s. -/
def c10WitnessSegment : TranscriptSegment :=
  { id := 0
    text := "ja..."
    startTime := 0
    endTime := 4
    audioFile := none
    isUncertain := segmentIsUncertain "ja..." 4 }

theorem c10_tooltip_matches_worker_witness :
    (uncertainReasons c10WitnessSegment ≠ [] ↔ c10WitnessSegment.isUncertain = true) :=
  c10_tooltip_matches_worker c10WitnessSegment 4 (by simp [c10WitnessSegment]) rfl

/-- The failing input for the final-save slip: a session at the moment the
stop click fires — no segments transcribed yet, one item still queued (its
audio already persisted as `audio/segment_0000.webm`), a seal in flight, a
bound project, the recorder still running. -/
def c1StopState : LiveState :=
  { freshLiveState with
    isProcessingSegment := true
    currentProject := some "projekt-1"
    transcriptionQueue :=
      [{ audioBlob := ⟨[⟨100, 1200⟩]⟩
         segmentIndex := 0
         startTime := 0
         audioFilePath := some "audio/segment_0000.webm" }] }

/-- C1 (the code evaluated at the failing input): stopping with one segment
still queued runs every step in the claimed order — mark inactive, cancel the
VAD loop, bounded wait, one final seal through the discard/enqueue path,
release the stream and analysis context, report draining, drain, final save,
settled — but the final consolidated `audioFiles` write saves the empty
pre-stop snapshot (`savedAudioFiles []`), even though the drain just produced
a segment whose persisted audio file is `audio/segment_0000.webm`: the
complete ordered list the claim (and the source's own comments at lines
2093–2100) call for would be `["audio/segment_0000.webm"]`. -/
theorem c1_stale_final_save :
    (toggleLiveModeStop c1StopState 7000 [] (fun _ _ _ => none) 3 witTranscribe).2 =
      [StopEvent.markedInactive, StopEvent.cancelledVad, StopEvent.waitedForSeal 3,
       StopEvent.finalSealInvoked, StopEvent.stoppedStream, StopEvent.closedAudioContext,
       StopEvent.reportedDraining 1, StopEvent.drainedQueue,
       StopEvent.savedAudioFiles [], StopEvent.settled] ∧
    (toggleLiveModeStop c1StopState 7000 [] (fun _ _ _ => none) 3
        witTranscribe).1.segments.map TranscriptSegment.audioFile
      = [some "audio/segment_0000.webm"] ∧
    (toggleLiveModeStop c1StopState 7000 [] (fun _ _ _ => none) 3
        witTranscribe).1.segments.map (fun seg =>
          match seg.audioFile with
          | some f => f
          | none => "audio/segment_" ++ pad4 seg.id ++ ".webm")
      = ["audio/segment_0000.webm"] := by
  have hstop : stopLiveMode c1StopState 7000 [] (fun _ _ _ => none) 3 =
      ({ liveModeActive := false
         liveAnimation := false
         mediaRecorder := some ⟨false⟩
         recordingStream := false
         audioChunks := []
         isProcessingSegment := false
         recordingStartTime := 0
         liveAudioBlobs := []
         transcriptionQueue :=
           [{ audioBlob := ⟨[⟨100, 1200⟩]⟩
              segmentIndex := 0
              startTime := 0
              audioFilePath := some "audio/segment_0000.webm" }]
         silenceStart := none
         silenceCountdown := none
         currentProject := some "projekt-1"
         savedAudio := []
         isTranscribing := false
         segments := []
         transcript := ""
         errors := [] },
       [StopEvent.markedInactive, StopEvent.cancelledVad, StopEvent.waitedForSeal 3,
        StopEvent.finalSealInvoked, StopEvent.stoppedStream,
        StopEvent.closedAudioContext]) := by
    decide
  have hdrain : (processTranscriptionQueue witTranscribe
      [{ audioBlob := ⟨[⟨100, 1200⟩]⟩
         segmentIndex := 0
         startTime := 0
         audioFilePath := some "audio/segment_0000.webm" }] [] "" []).1
      = [{ id := 0
           text := "hallo welt"
           startTime := 0
           endTime := 1
           audioFile := some "audio/segment_0000.webm"
           isUncertain := false }] := by
    simp only [processTranscriptionQueue, witTranscribe]
    rw [if_neg (by norm_num : ¬ (1 : ℚ) < 1 / 2)]
    rw [if_neg (by decide : ¬ (String.mk (jsTrim "hallo welt".data)).data.length < 2)]
    simp only [processTranscriptionQueue]
    simp [(by decide : String.mk (jsTrim "hallo welt".data) = "hallo welt"),
      (by decide : segmentIsUncertain "hallo welt" 1 = false)]
  refine ⟨by decide, ?_, ?_⟩
  · simp only [toggleLiveModeStop, hstop]
    simp [hdrain]
  · simp only [toggleLiveModeStop, hstop]
    simp [hdrain]
